import Mathlib

/-!
Shallow embedding of `src/index.js` of serverless-secret-baker: a Serverless
plugin that resolves declared secrets against AWS SSM Parameter Store, writes
them to a JSON file before packaging, registers the file in the package
include list, and deletes it after packaging.

Conventions of the embedding:
* JavaScript exceptions are modelled with `Except JsError` / an `Option JsError`
  component; thrown errors are distinguished by their JS class
  (`ReferenceError`, `TypeError`, bare `Error`, `this.serverless.classes.Error`).
* The AWS provider request layer is an oracle passed in as a function; the
  embedding of `getParameterFromSsm` additionally records the exact request
  parameters and options it hands to the provider, so that theorems can speak
  about what was sent (decryption flag, cache option, number of calls).
* The filesystem is an association list from path to (structured) file
  contents; `JSON.stringify` of the secrets object is kept structurally as the
  insertion-ordered association list the JS object holds, since the claims are
  about entries, not about the character-level JSON text.
-/

namespace SecretBaker

/-- JavaScript errors thrown by the plugin, distinguished by their JS class:
a `ReferenceError` (evaluating the undefined bare identifier `custom` on
lines 60-61), a `TypeError` (reading `.groups` of a `null` regex match result
in `readParams`), a plain `Error` (the `Unable to load Secret` throw in
`writeSecretToFile`), or the error type of the host `this.serverless.classes.Error`
(configuration shape error, wrapped backend failure). -/
inductive JsError
  | referenceError (msg : String)
  | typeError (msg : String)
  | jsError (msg : String)
  | serverlessError (msg : String)
deriving DecidableEq

/-- The `response.Parameter` object returned by SSM `getParameter`. -/
structure Param where
  Value : String
  ARN : String
deriving DecidableEq

/-- Request parameters built on lines 113-116: `{ Name: name, WithDecryption: false }`. -/
structure GetParameterRequest where
  Name : String
  WithDecryption : Bool
deriving DecidableEq

/-- Request options built on line 117: `{ useCache: true }`. -/
structure RequestOptions where
  useCache : Bool
deriving DecidableEq

/-- Outcome of one call to the provider request layer
`this.serverless.getProvider("aws").request("SSM", "getParameter", ...)`:
either a successful response carrying `response.Parameter`, or a rejection
carrying an error with an optional `statusCode` and a `message`. -/
inductive AwsResponse
  | success (Parameter : Param)
  | failure (statusCode : Option Nat) (message : String)

/-- Result of `getParameterFromSsm` (lines 107-129): the promise resolves with
the parameter, resolves with `undefined` (modelled `absent`) when the backend
rejected with `statusCode === 400`, or rejects with
`new this.serverless.classes.Error(err.message)` otherwise. -/
inductive FetchResult
  | found (p : Param)
  | absent
  | fatal (e : JsError)
deriving DecidableEq

/-- Lines 107-129. The oracle `request` stands for the provider request layer.
The first component is the settled value of the returned promise; the second
component records every invocation of the provider (request parameters and
options), so the theorems can state that exactly one request is sent, with
decryption disabled and caching enabled, and that there is no retry. -/
def getParameterFromSsm (request : GetParameterRequest → RequestOptions → AwsResponse)
    (name : String) : FetchResult × List (GetParameterRequest × RequestOptions) :=
  let req : GetParameterRequest := { Name := name, WithDecryption := false }
  let opts : RequestOptions := { useCache := true }
  match request req opts with
  | AwsResponse.success p => (FetchResult.found p, [(req, opts)])
  | AwsResponse.failure code msg =>
    if code ≠ some 400 then
      (FetchResult.fatal (JsError.serverlessError msg), [(req, opts)])
    else
      (FetchResult.absent, [(req, opts)])

/-- Line 5: `const defaultSecretsFile = "secret-baker-secrets.json";`. -/
def defaultSecretsFile : String := "secret-baker-secrets.json"

/-- One entry of the secrets object assembled on lines 98-101:
`{ ciphertext: param.Value, arn: param.ARN }`. -/
structure ResolvedSecret where
  ciphertext : String
  arn : String
deriving DecidableEq

/-- The JS object `secrets` of `writeSecretToFile`, kept as its
insertion-ordered association list of string keys to values. -/
abbrev SecretsObject := List (String × ResolvedSecret)

/-- The filesystem, as an association list from path to the (structured)
contents of the JSON file written there. -/
abbrev FileSystem := List (String × SecretsObject)

/-- Property assignment `obj[k] = v` on a JS object kept as an
insertion-ordered association list: an existing key keeps its position and has
its value overwritten, a new key is appended at the end. -/
def objInsert {α : Type} (obj : List (String × α)) (k : String) (v : α) :
    List (String × α) :=
  if obj.any (fun e => e.1 == k) then
    obj.map (fun e => if e.1 == k then (k, v) else e)
  else
    obj ++ [(k, v)]

/-- Lookup of a path in the modelled filesystem. -/
def fsLookup (st : FileSystem) (p : String) : Option SecretsObject :=
  st.lookup p

/-- Model of `fs.existsSync(p)`. -/
def fsExists (st : FileSystem) (p : String) : Bool :=
  (fsLookup st p).isSome

/-- Model of `fs.writeFileAsync(p, c)`: replaces any file previously at `p`. -/
def fsWrite (st : FileSystem) (p : String) (c : SecretsObject) : FileSystem :=
  (p, c) :: st.filter (fun e => e.1 != p)

/-- Model of `fs.unlinkSync(p)`. -/
def fsUnlink (st : FileSystem) (p : String) : FileSystem :=
  st.filter (fun e => e.1 != p)

/-- A normalized secret reference `{name, path}` as destructured by the loop
on line 91. -/
structure SecretRef where
  name : String
  path : String
deriving DecidableEq

/-- The `for (const {name, path} of providerSecrets)` loop of
`writeSecretToFile` (lines 91-102): awaits `this.getParameterFromSsm(path)`
for each entry in declaration order; a rejected lookup promise propagates, an
`undefined` result throws `Error("Unable to load Secret " + name)`, a found
parameter is stored into the `secrets` object. -/
def resolveSecrets (fetch : String → FetchResult) :
    List SecretRef → SecretsObject → Except JsError SecretsObject
  | [], secrets => Except.ok secrets
  | r :: rest, secrets =>
    match fetch r.path with
    | FetchResult.fatal e => Except.error e
    | FetchResult.absent => Except.error (JsError.jsError ("Unable to load Secret " ++ r.name))
    | FetchResult.found p =>
      resolveSecrets fetch rest
        (objInsert secrets r.name { ciphertext := p.Value, arn := p.ARN })

/-- The composed per-path lookup `this.getParameterFromSsm(path)` used by the
loop, projecting out the settled value of the promise. -/
def fetchOf (request : GetParameterRequest → RequestOptions → AwsResponse)
    (path : String) : FetchResult :=
  (getParameterFromSsm request path).1

/-- Lines 86-105, `writeSecretToFile`, given the list `providerSecrets` that
`this.getSecretsConfig()` on line 87 returned and the current value of
`this.secretsFile` (the config-reading step itself is embedded separately as
`getSecretsConfig`). Returns the error the rejected promise carries (if any)
together with the resulting filesystem; the single write of the function, on
line 104, happens only after the whole loop succeeded, so on an error the
filesystem is returned untouched. -/
def writeSecretToFile (request : GetParameterRequest → RequestOptions → AwsResponse)
    (providerSecrets : List SecretRef) (secretsFile : String) (st : FileSystem) :
    Option JsError × FileSystem :=
  match resolveSecrets (fetchOf request) providerSecrets [] with
  | Except.error e => (some e, st)
  | Except.ok secrets => (none, fsWrite st secretsFile secrets)

/-- Result of `packageSecrets`: the error of the returned promise (if any),
the value of `this.serverless.service.package.include` afterwards, and the
filesystem afterwards. -/
structure PackageResult where
  err : Option JsError
  packageInclude : List String
  fs : FileSystem
deriving DecidableEq

/-- Lines 136-143, `packageSecrets`, with the include list passed in as it
stood before the call (`none` models an absent `package.include`). Line 138
creates the include list if missing before the write; the path is pushed only
after `writeSecretToFile` resolved. The `cli.log` call is pure logging and is
not modelled. -/
def packageSecrets (request : GetParameterRequest → RequestOptions → AwsResponse)
    (providerSecrets : List SecretRef) (secretsFile : String)
    (includeOpt : Option (List String)) (st : FileSystem) : PackageResult :=
  let inc := includeOpt.getD []
  match writeSecretToFile request providerSecrets secretsFile st with
  | (some e, st1) => { err := some e, packageInclude := inc, fs := st1 }
  | (none, st1) => { err := none, packageInclude := inc ++ [secretsFile], fs := st1 }

/-- Lines 131-134, `cleanupPackageSecrets`: unlinks `this.secretsFile` if it
exists, otherwise does nothing. The `cli.log` call is not modelled. -/
def cleanupPackageSecrets (secretsFile : String) (st : FileSystem) : FileSystem :=
  if fsExists st secretsFile then fsUnlink st secretsFile else st

/-- Untyped JavaScript configuration values, as far as the plugin inspects
them: strings, numbers, booleans, arrays, plain objects (kept as their
insertion-ordered field list, which is the iteration order the plugin sees),
`null` and `undefined`. -/
inductive JsValue
  | str (s : String)
  | num (n : Int)
  | bool (b : Bool)
  | arr (items : List JsValue)
  | obj (fields : List (String × JsValue))
  | nullV
  | undef

/-- JavaScript truthiness of a configuration value. -/
def jsTruthy : JsValue → Bool
  | JsValue.str s => s != ""
  | JsValue.num n => n != 0
  | JsValue.bool b => b
  | JsValue.arr _ => true
  | JsValue.obj _ => true
  | JsValue.nullV => false
  | JsValue.undef => false

/-- The map body of the `Array.isArray` branch (lines 65-74): a string element
becomes `{name: item, path: item}`, any other element is returned unchanged. -/
def normListItem : JsValue → JsValue
  | JsValue.str s => JsValue.obj [("name", JsValue.str s), ("path", JsValue.str s)]
  | item => item

/-- Lines 64-83 of `getSecretsConfig`: the shape dispatch on the `secrets`
value. An array is mapped elementwise by `normListItem`; otherwise
`typeof secrets === "object"` selects the `Object.entries` branch (which in JS
is also taken for `null`, where `Object.entries` throws a `TypeError`); any
other shape reaches the `throw new this.serverless.classes.Error(...)` on
lines 81-83. -/
def normalizeSecretsValue : JsValue → Except JsError (List JsValue)
  | JsValue.arr items => Except.ok (items.map normListItem)
  | JsValue.obj fields =>
    Except.ok (fields.map (fun f => JsValue.obj [("name", JsValue.str f.1), ("path", f.2)]))
  | JsValue.nullV => Except.error (JsError.typeError "Cannot convert undefined or null to object")
  | _ => Except.error (JsError.serverlessError "Secret Baker configuration contained an unexpected value.")

/-- The `secretBaker` block of the service configuration: its `secrets` and
`filePath` properties (`undef` when not configured). -/
structure SecretBakerConfig where
  secrets : JsValue
  filePath : JsValue

/-- The `custom` block of the service configuration; `secretBaker` is `none`
when the property is absent. -/
structure CustomConfig where
  secretBaker : Option SecretBakerConfig

/-- The slice of `this.serverless.service` the plugin reads; `custom` is
`none` when the property is absent. -/
structure ServerlessService where
  custom : Option CustomConfig

/-- Lines 59-84, `getSecretsConfig`, exactly as the source evaluates. Lines
60-61 read `custom.secretBaker.secrets` and `custom.secretBaker.filePath`
through the bare identifier `custom`, which is not defined anywhere in the
module (the module is in strict mode), so as soon as the guard
`this.serverless.service.custom && this.serverless.service.custom.secretBaker`
is truthy, evaluation throws `ReferenceError: custom is not defined`. When the
guard is falsy the `&&` chain short-circuits to a falsy value, `|| []` makes
the declaration `[]`, the `filePath` expression likewise yields `undefined`,
and `this.secretsFile` keeps its current value. Returns the normalized list
and the new value of `this.secretsFile`. -/
def getSecretsConfig (svc : ServerlessService) (secretsFile0 : String) :
    Except JsError (List JsValue × JsValue) :=
  match svc.custom with
  | none =>
    (normalizeSecretsValue (JsValue.arr [])).map
      (fun refs => (refs, JsValue.str secretsFile0))
  | some c =>
    match c.secretBaker with
    | none =>
      (normalizeSecretsValue (JsValue.arr [])).map
        (fun refs => (refs, JsValue.str secretsFile0))
    | some _ => Except.error (JsError.referenceError "custom is not defined")

/-- Lines 59-84 with the bare identifier `custom` read as
`this.serverless.service.custom` — the intended behavior according to the
design notes of the specification, which single out the bare reference as a defect.
This is the only definition in the file that deviates from the source, and it
deviates in exactly that one identifier; it exists to show what the claims
about `getSecretsConfig` would do under the intended reading. -/
def getSecretsConfigIntended (svc : ServerlessService) (secretsFile0 : String) :
    Except JsError (List JsValue × JsValue) :=
  let sb : Option SecretBakerConfig :=
    match svc.custom with
    | some c => c.secretBaker
    | none => none
  let secrets : JsValue :=
    match sb with
    | some b => if jsTruthy b.secrets then b.secrets else JsValue.arr []
    | none => JsValue.arr []
  let customSecretsFile : Option JsValue :=
    match sb with
    | some b => if jsTruthy b.filePath then some b.filePath else none
    | none => none
  let file : JsValue :=
    match customSecretsFile with
    | some f => f
    | none => JsValue.str secretsFile0
  (normalizeSecretsValue secrets).map (fun refs => (refs, file))

/-- A parsed CLI parameter as built on lines 50-53:
`{ value: ..., type: "cli" }`. -/
structure CliParam where
  value : String
  type : String
deriving DecidableEq

/-- Whitespace removed by `String.prototype.trimEnd` (the ASCII white space
characters; the exotic Unicode spaces JS also strips are not needed for any
configuration the plugin meets). -/
def jsWhitespace (c : Char) : Bool :=
  c == ' ' || c == '\t' || c == '\n' || c == '\r' || c == Char.ofNat 11 || c == Char.ofNat 12

/-- Model of `String.prototype.trimEnd` used on line 51. -/
def trimEnd (s : String) : String :=
  String.mk ((s.data.reverse.dropWhile jsWhitespace).reverse)

/-- Model of `item.split(",")` on line 48: splits at every comma, keeping
empty pieces, and yields `[""]` for the empty string, as JS does. -/
def splitCommaAux (cur : List Char) : List Char → List (List Char)
  | [] => [cur.reverse]
  | c :: rest =>
    if c = ',' then cur.reverse :: splitCommaAux [] rest
    else splitCommaAux (c :: cur) rest

/-- String-level wrapper of `splitCommaAux`. -/
def jsSplitComma (s : String) : List String :=
  (splitCommaAux [] s.data).map String.mk

/-- The ECMAScript LineTerminator characters, which `.` in a regex without
the `s` flag refuses to match: LF, CR, LINE SEPARATOR (U+2028) and PARAGRAPH
SEPARATOR (U+2029). -/
def isLineTerminator (c : Char) : Bool :=
  c == '\n' || c == '\r' || c == Char.ofNat 0x2028 || c == Char.ofNat 0x2029

/-- One attempt of the regex `/(?<key>[^=]+)=(?<value>.+)/` (line 6) at a
fixed start position: a nonempty run of characters other than `=`, then a
literal `=`, then a nonempty greedy run of characters `.` matches — any
character that is not a LineTerminator (LF, CR, U+2028, U+2029). There is no
backtracking inside one attempt: the key run necessarily stops at the first
`=` at or after the start position, and nothing follows `.+` in the
pattern. -/
def tryMatchAt (cs : List Char) : Option (List Char × List Char) :=
  let key := cs.takeWhile (fun c => c != '=')
  let rest := cs.dropWhile (fun c => c != '=')
  if key.isEmpty then none
  else if rest.isEmpty then none
  else
    let value := (rest.drop 1).takeWhile (fun c => !isLineTerminator c)
    if value.isEmpty then none else some (key, value)

/-- Model of `splitted.match(optionsParamsRegex)`: the regex engine tries the
pattern at each start position from the left and returns the first successful
match (its `key` and `value` groups), or `null` (here `none`) if every
position fails. -/
def matchKeyValue : List Char → Option (List Char × List Char)
  | [] => none
  | c :: rest =>
    match tryMatchAt (c :: rest) with
    | some kv => some kv
    | none => matchKeyValue rest

/-- The comma-pieces the two nested loops of `readParams` (lines 47-55)
process, in processing order. -/
def splitPieces (args : List String) : List String :=
  args.flatMap jsSplitComma

/-- The body of the inner loop of `readParams` for one comma-piece, folded
over the accumulated `resultParams` object: a `null` match makes the
`res.groups` access on line 50 throw a `TypeError`; otherwise the entry
`{ value: res.groups.value.trimEnd(), type: "cli" }` is assigned to
`resultParams[res.groups.key]`. -/
def readParamsAux (acc : List (String × CliParam)) :
    List String → Except JsError (List (String × CliParam))
  | [] => Except.ok acc
  | piece :: rest =>
    match matchKeyValue piece.data with
    | none => Except.error (JsError.typeError "Cannot read properties of null")
    | some kv =>
      readParamsAux
        (objInsert acc (String.mk kv.1) { value := trimEnd (String.mk kv.2), type := "cli" })
        rest

/-- Lines 45-57, `readParams`: both nested loops flattened into one pass over
the comma-pieces of all raw parameters, accumulating the `resultParams`
object. -/
def readParams (args : List String) : Except JsError (List (String × CliParam)) :=
  readParamsAux [] (splitPieces args)

/-- The two logical operations the hooks dispatch to. -/
inductive HookAction
  | packageHook
  | cleanupHook
deriving DecidableEq

/-- The `pkgHooks` table of the constructor (lines 12-21). -/
def pkgHooks : List (String × HookAction) :=
  [("before:package:createDeploymentArtifacts", HookAction.packageHook),
   ("before:deploy:function:packageFunction", HookAction.packageHook),
   ("before:offline:start", HookAction.packageHook),
   ("before:invoke:local:invoke", HookAction.packageHook)]

/-- The `cleanupHooks` table of the constructor (lines 23-34). -/
def cleanupHooks : List (String × HookAction) :=
  [("after:package:createDeploymentArtifacts", HookAction.cleanupHook),
   ("after:deploy:function:packageFunction", HookAction.cleanupHook),
   ("before:offline:start:end", HookAction.cleanupHook),
   ("after:invoke:local:invoke", HookAction.cleanupHook)]

/-- Lines 36-39 of the constructor: `this.hooks` as a function of
`options.param || []`. `readParams` may throw (propagated here);
`shouldCleanup` is `!params["secret-baker-cleanup"]`, i.e. false exactly when
the key is present (the stored value is an object and hence always truthy);
the object spread `{...pkgHooks, ...cleanupHooks}` is a plain concatenation
because the two tables have disjoint event-name keys. The decision is taken
once, here, and `this.hooks` is never written again. -/
def constructorHooks (paramArgs : List String) :
    Except JsError (List (String × HookAction)) :=
  match readParams paramArgs with
  | Except.error e => Except.error e
  | Except.ok params =>
    let shouldCleanup := !(params.lookup "secret-baker-cleanup").isSome
    Except.ok (if shouldCleanup then pkgHooks ++ cleanupHooks else pkgHooks)

/-- The resolved entry a `found` lookup contributes to the secrets object
(used only to state results; the catch-all branch is never reached under the
all-found hypotheses of the lemmas using it). -/
def resolvedOf : FetchResult → ResolvedSecret
  | FetchResult.found p => { ciphertext := p.Value, arn := p.ARN }
  | _ => { ciphertext := "", arn := "" }

/-- C3. Parameter Store Client contract: `getParameterFromSsm` sends exactly
one request — with decryption disabled (`WithDecryption: false`) and response
caching enabled (`useCache: true`) — and never retries; on a successful
response it yields the parameter of the backend; on a failure with the recognized
not-found status (HTTP 400) it yields `absent`; on a failure with any other
status it propagates a fatal `this.serverless.classes.Error` wrapping the
message of the backend. -/
theorem claim_C3_parameter_store_client
    (request : GetParameterRequest → RequestOptions → AwsResponse) (name : String) :
    (getParameterFromSsm request name).2
      = [({ Name := name, WithDecryption := false }, { useCache := true })] ∧
    (∀ p, request { Name := name, WithDecryption := false } { useCache := true }
        = AwsResponse.success p →
      (getParameterFromSsm request name).1 = FetchResult.found p) ∧
    (∀ msg, request { Name := name, WithDecryption := false } { useCache := true }
        = AwsResponse.failure (some 400) msg →
      (getParameterFromSsm request name).1 = FetchResult.absent) ∧
    (∀ code msg, request { Name := name, WithDecryption := false } { useCache := true }
        = AwsResponse.failure code msg → code ≠ some 400 →
      (getParameterFromSsm request name).1
        = FetchResult.fatal (JsError.serverlessError msg)) := by
  simp only [getParameterFromSsm]
  cases h : request { Name := name, WithDecryption := false } { useCache := true } with
  | success p =>
    refine ⟨by simp, ?_, ?_, ?_⟩
    · intro q hq; cases hq; simp
    · intro msg hmsg; cases hmsg
    · intro code msg hmsg; cases hmsg
  | failure code msg =>
    by_cases hc : code = some 400
    · subst hc
      refine ⟨by simp, ?_, ?_, ?_⟩
      · intro q hq; cases hq
      · intro msg2 hmsg; cases hmsg; simp
      · intro code2 msg2 hmsg hne; cases hmsg; exact absurd rfl hne
    · refine ⟨by simp [hc], ?_, ?_, ?_⟩
      · intro q hq; cases hq
      · intro msg2 hmsg; cases hmsg; exact absurd rfl hc
      · intro code2 msg2 hmsg hne; cases hmsg; simp [hc]

/-- Witness for C3, instantiating the contract at three concrete backends. -/
theorem claim_C3_parameter_store_client_witness :
    (getParameterFromSsm (fun _ _ => AwsResponse.success ⟨"v", "a"⟩) "p").1
      = FetchResult.found ⟨"v", "a"⟩ ∧
    (getParameterFromSsm (fun _ _ => AwsResponse.failure (some 400) "nf") "p").1
      = FetchResult.absent ∧
    (getParameterFromSsm (fun _ _ => AwsResponse.failure (some 500) "boom") "p").1
      = FetchResult.fatal (JsError.serverlessError "boom") := by
  refine ⟨?_, ?_, ?_⟩
  · exact (claim_C3_parameter_store_client
      (fun _ _ => AwsResponse.success ⟨"v", "a"⟩) "p").2.1 ⟨"v", "a"⟩ rfl
  · exact (claim_C3_parameter_store_client
      (fun _ _ => AwsResponse.failure (some 400) "nf") "p").2.2.1 "nf" rfl
  · exact (claim_C3_parameter_store_client
      (fun _ _ => AwsResponse.failure (some 500) "boom") "p").2.2.2 (some 500) "boom" rfl
      (by simp)

/-- If the secret at index `i` is the first whose lookup is not `found` and
its lookup is `absent`, the loop rejects with the `Unable to load Secret`
error, whatever the accumulator holds. -/
theorem resolveSecrets_first_absent (fetch : String → FetchResult) :
    ∀ (refs : List SecretRef) (i : Nat) (r : SecretRef) (acc : SecretsObject),
      refs.get? i = some r →
      fetch r.path = FetchResult.absent →
      (∀ j rj, j < i → refs.get? j = some rj →
        ∃ p, fetch rj.path = FetchResult.found p) →
      resolveSecrets fetch refs acc
        = Except.error (JsError.jsError ("Unable to load Secret " ++ r.name)) := by
  intro refs
  induction refs with
  | nil => intro i r acc h; simp at h
  | cons r0 rest ih =>
    intro i r acc h habs hfound
    cases i with
    | zero =>
      rw [List.get?_cons_zero] at h
      cases h
      unfold resolveSecrets
      rw [habs]
    | succ i =>
      obtain ⟨p0, hp0⟩ := hfound 0 r0 (Nat.succ_pos i) (List.get?_cons_zero)
      unfold resolveSecrets
      rw [hp0]
      exact ih i r _ (by simpa using h) habs
        (fun j rj hj hjr =>
          hfound (j + 1) rj (Nat.succ_lt_succ hj) (by simpa using hjr))

/-- C1. All-or-nothing materialization: given the declared secrets in order,
if every secret before index `i` resolves and the lookup for the secret at
index `i` returns `absent`, `writeSecretToFile` rejects with the error
`Unable to load Secret <name>` naming that secret, and the filesystem is
returned exactly as it was — the single write on line 104 is only reached
after every declared secret resolved, so no partial secrets file is ever
produced. -/
theorem claim_C1_all_or_nothing
    (request : GetParameterRequest → RequestOptions → AwsResponse)
    (providerSecrets : List SecretRef) (secretsFile : String) (st : FileSystem)
    (i : Nat) (r : SecretRef)
    (hi : providerSecrets.get? i = some r)
    (habs : fetchOf request r.path = FetchResult.absent)
    (hbefore : ∀ j rj, j < i → providerSecrets.get? j = some rj →
      ∃ p, fetchOf request rj.path = FetchResult.found p) :
    writeSecretToFile request providerSecrets secretsFile st
      = (some (JsError.jsError ("Unable to load Secret " ++ r.name)), st) := by
  unfold writeSecretToFile
  rw [resolveSecrets_first_absent (fetchOf request) providerSecrets i r [] hi habs hbefore]

/-- Witness for C1: one declared secret `A`, backend reports not-found
(status 400); the run rejects with `Unable to load Secret A` and the
filesystem is untouched. -/
theorem claim_C1_all_or_nothing_witness :
    writeSecretToFile (fun _ _ => AwsResponse.failure (some 400) "nf")
        [⟨"A", "A"⟩] defaultSecretsFile []
      = (some (JsError.jsError "Unable to load Secret A"), []) := by
  have h := claim_C1_all_or_nothing (fun _ _ => AwsResponse.failure (some 400) "nf")
    [⟨"A", "A"⟩] defaultSecretsFile [] 0 ⟨"A", "A"⟩ rfl rfl
    (fun j rj hj _ => absurd hj (Nat.not_lt_zero j))
  exact h

/-- Assigning a fresh key to a JS object appends the entry. -/
theorem objInsert_fresh {α : Type} (obj : List (String × α)) (k : String) (v : α)
    (h : ∀ e ∈ obj, e.1 ≠ k) : objInsert obj k v = obj ++ [(k, v)] := by
  have hany : obj.any (fun e => e.1 == k) = false := by
    rw [List.any_eq_false]
    intro e he
    simpa using h e he
  simp [objInsert, hany]

/-- When every declared secret resolves and the declared names are pairwise
distinct (and fresh for the accumulator), the loop returns the accumulator
extended by one entry per declared secret, in declaration order. -/
theorem resolveSecrets_all_found
    (request : GetParameterRequest → RequestOptions → AwsResponse) :
    ∀ (refs : List SecretRef) (acc : SecretsObject),
      (∀ r ∈ refs, ∃ p, fetchOf request r.path = FetchResult.found p) →
      (refs.map SecretRef.name).Nodup →
      (∀ r ∈ refs, ∀ e ∈ acc, e.1 ≠ r.name) →
      resolveSecrets (fetchOf request) refs acc
        = Except.ok (acc ++ refs.map
            (fun r => (r.name, resolvedOf (fetchOf request r.path)))) := by
  intro refs
  induction refs with
  | nil => intro acc _ _ _; simp [resolveSecrets]
  | cons r rest ih =>
    intro acc hall hnd hdisj
    obtain ⟨p, hp⟩ := hall r (List.mem_cons_self r rest)
    have hfresh : ∀ e ∈ acc, e.1 ≠ r.name :=
      fun e he => hdisj r (List.mem_cons_self r rest) e he
    have hnotin : r.name ∉ rest.map SecretRef.name := by
      have := hnd
      rw [List.map_cons, List.nodup_cons] at this
      exact this.1
    rw [show resolveSecrets (fetchOf request) (r :: rest) acc
        = resolveSecrets (fetchOf request) rest
            (objInsert acc r.name { ciphertext := p.Value, arn := p.ARN }) from by
      simp only [resolveSecrets, hp]]
    rw [objInsert_fresh acc r.name _ hfresh]
    have hdisj2 : ∀ r2 ∈ rest,
        ∀ e ∈ acc ++ [(r.name, ({ ciphertext := p.Value, arn := p.ARN } : ResolvedSecret))],
        e.1 ≠ r2.name := by
      intro r2 h2 e he
      rcases List.mem_append.mp he with he1 | he2
      · exact hdisj r2 (List.mem_cons_of_mem r h2) e he1
      · rcases List.mem_singleton.mp he2 with rfl
        intro heq
        exact hnotin (by rw [show r.name = r2.name from heq]
                         exact List.mem_map_of_mem SecretRef.name h2)
    have hih := ih (acc ++ [(r.name, { ciphertext := p.Value, arn := p.ARN })])
      (fun r2 h2 => hall r2 (List.mem_cons_of_mem r h2))
      (by rw [List.map_cons, List.nodup_cons] at hnd; exact hnd.2)
      hdisj2
    rw [hih]
    rw [List.map_cons, List.append_assoc, List.singleton_append, hp]
    rfl

/-- C2 (amended with pairwise-distinct logical names). Full-success
materialization: when the lookup of every declared secret succeeds and the declared
logical names are pairwise distinct, `packageSecrets` resolves without error,
a file is written at the output path holding exactly one entry per declared
secret — in order, with `ciphertext` the backend `Value` and `arn` the
backend `ARN` for the path of that secret — and the output path is appended to
the package include list, which is created first if missing. -/
theorem claim_C2_full_success
    (request : GetParameterRequest → RequestOptions → AwsResponse)
    (providerSecrets : List SecretRef) (secretsFile : String)
    (includeOpt : Option (List String)) (st : FileSystem)
    (hnd : (providerSecrets.map SecretRef.name).Nodup)
    (hall : ∀ r ∈ providerSecrets, ∃ p, fetchOf request r.path = FetchResult.found p) :
    (packageSecrets request providerSecrets secretsFile includeOpt st).err = none ∧
    (packageSecrets request providerSecrets secretsFile includeOpt st).packageInclude
      = includeOpt.getD [] ++ [secretsFile] ∧
    ∃ obj,
      fsLookup (packageSecrets request providerSecrets secretsFile includeOpt st).fs
          secretsFile = some obj ∧
      obj.length = providerSecrets.length ∧
      ∀ i r, providerSecrets.get? i = some r →
        ∃ p, fetchOf request r.path = FetchResult.found p ∧
          obj.get? i = some (r.name, { ciphertext := p.Value, arn := p.ARN }) := by
  have hres := resolveSecrets_all_found request providerSecrets [] hall hnd
    (fun r _ e he => absurd he (List.not_mem_nil e))
  rw [List.nil_append] at hres
  have hwrite : writeSecretToFile request providerSecrets secretsFile st
      = (none, fsWrite st secretsFile (providerSecrets.map
          (fun r => (r.name, resolvedOf (fetchOf request r.path))))) := by
    unfold writeSecretToFile
    rw [hres]
  refine ⟨?_, ?_, ?_⟩
  · simp [packageSecrets, hwrite]
  · simp [packageSecrets, hwrite]
  · refine ⟨providerSecrets.map (fun r => (r.name, resolvedOf (fetchOf request r.path))),
      ?_, by simp, ?_⟩
    · simp [packageSecrets, hwrite, fsLookup, fsWrite, List.lookup]
    · intro i r hi
      have hmem : r ∈ providerSecrets := List.get?_mem hi
      obtain ⟨p, hp⟩ := hall r hmem
      refine ⟨p, hp, ?_⟩
      rw [List.get?_map, hi]
      simp [hp, resolvedOf]

/-- Witness for C2: the end-to-end scenario of the specification — one
declared secret `DB_PASSWORD`, backend returns its value and ARN. -/
theorem claim_C2_full_success_witness :
    (packageSecrets (fun _ _ => AwsResponse.success ⟨"s3cr3t", "arn:aws:ssm:parameter/DB_PASSWORD"⟩)
        [⟨"DB_PASSWORD", "DB_PASSWORD"⟩] defaultSecretsFile none []).err = none ∧
    (packageSecrets (fun _ _ => AwsResponse.success ⟨"s3cr3t", "arn:aws:ssm:parameter/DB_PASSWORD"⟩)
        [⟨"DB_PASSWORD", "DB_PASSWORD"⟩] defaultSecretsFile none []).packageInclude
      = (none : Option (List String)).getD [] ++ [defaultSecretsFile] ∧
    ∃ obj,
      fsLookup (packageSecrets (fun _ _ => AwsResponse.success ⟨"s3cr3t", "arn:aws:ssm:parameter/DB_PASSWORD"⟩)
          [⟨"DB_PASSWORD", "DB_PASSWORD"⟩] defaultSecretsFile none []).fs
          defaultSecretsFile = some obj ∧
      obj.length = ([⟨"DB_PASSWORD", "DB_PASSWORD"⟩] : List SecretRef).length ∧
      ∀ i r, ([⟨"DB_PASSWORD", "DB_PASSWORD"⟩] : List SecretRef).get? i = some r →
        ∃ p, fetchOf (fun _ _ => AwsResponse.success ⟨"s3cr3t", "arn:aws:ssm:parameter/DB_PASSWORD"⟩) r.path
            = FetchResult.found p ∧
          obj.get? i = some (r.name, { ciphertext := p.Value, arn := p.ARN }) := by
  exact claim_C2_full_success _ _ _ _ _ (by simp)
    (fun r _ => ⟨⟨"s3cr3t", "arn:aws:ssm:parameter/DB_PASSWORD"⟩, rfl⟩)

/-- Counterexample to C2 as stated: with the duplicate declaration
`["A", "A"]` there are `N = 2` declared secrets and every lookup succeeds,
yet the written file holds a single entry (the JS object keeps one entry per
key, last write wins), not "exactly N entries". -/
theorem claim_C2_counterexample :
    (packageSecrets (fun _ _ => AwsResponse.success ⟨"v", "a"⟩)
        [⟨"A", "A"⟩, ⟨"A", "A"⟩] defaultSecretsFile none []).err = none ∧
    (fsLookup (packageSecrets (fun _ _ => AwsResponse.success ⟨"v", "a"⟩)
        [⟨"A", "A"⟩, ⟨"A", "A"⟩] defaultSecretsFile none []).fs defaultSecretsFile).map
        List.length = some 1 ∧
    ([⟨"A", "A"⟩, ⟨"A", "A"⟩] : List SecretRef).length = 2 := by
  exact ⟨rfl, rfl, rfl⟩

/-- C4, evaluated at the failing input. A valid list-form declaration
`secrets: ["MY_SECRET"]` makes `getSecretsConfig` throw
`ReferenceError: custom is not defined` (the bare `custom` on line 60) instead
of producing the SecretRefs the claim describes; under the intended reading of
the configuration access (`getSecretsConfigIntended`) the normalized
output of the claim is produced. The mapping form fails identically, since the
`ReferenceError` precedes the shape dispatch. -/
theorem claim_C4_normalization_code_bug :
    getSecretsConfig
        ⟨some ⟨some ⟨JsValue.arr [JsValue.str "MY_SECRET"], JsValue.undef⟩⟩⟩
        defaultSecretsFile
      = Except.error (JsError.referenceError "custom is not defined") ∧
    getSecretsConfigIntended
        ⟨some ⟨some ⟨JsValue.arr [JsValue.str "MY_SECRET"], JsValue.undef⟩⟩⟩
        defaultSecretsFile
      = Except.ok
          ([JsValue.obj [("name", JsValue.str "MY_SECRET"), ("path", JsValue.str "MY_SECRET")]],
           JsValue.str defaultSecretsFile) ∧
    getSecretsConfigIntended
        ⟨some ⟨some ⟨JsValue.obj [("NAME", JsValue.str "/ssm/path")], JsValue.undef⟩⟩⟩
        defaultSecretsFile
      = Except.ok
          ([JsValue.obj [("name", JsValue.str "NAME"), ("path", JsValue.str "/ssm/path")]],
           JsValue.str defaultSecretsFile) := by
  exact ⟨rfl, rfl, rfl⟩

/-- C5, evaluated at the failing input. A declaration of invalid shape
(`secrets: "oops"`, a string) makes `getSecretsConfig` throw
`ReferenceError: custom is not defined` on line 60 — not the configuration
error through the error type of the host that the claim describes; under the
intended configuration access the code does throw the host-typed
configuration error, for a string and for a number alike. -/
theorem claim_C5_shape_error_code_bug :
    getSecretsConfig ⟨some ⟨some ⟨JsValue.str "oops", JsValue.undef⟩⟩⟩ defaultSecretsFile
      = Except.error (JsError.referenceError "custom is not defined") ∧
    getSecretsConfigIntended ⟨some ⟨some ⟨JsValue.str "oops", JsValue.undef⟩⟩⟩ defaultSecretsFile
      = Except.error
          (JsError.serverlessError "Secret Baker configuration contained an unexpected value.") ∧
    getSecretsConfigIntended ⟨some ⟨some ⟨JsValue.num 5, JsValue.undef⟩⟩⟩ defaultSecretsFile
      = Except.error
          (JsError.serverlessError "Secret Baker configuration contained an unexpected value.") := by
  exact ⟨rfl, rfl, rfl⟩

/-- C6, evaluated at the failing input. With a custom output path configured
(`filePath: "my-secrets.json"`), `getSecretsConfig` throws
`ReferenceError: custom is not defined` on line 60 before line 62 can assign
`this.secretsFile`, so the output path never becomes the configured one; when
`custom.secretBaker` is absent the path keeps the fixed default
`secret-baker-secrets.json`. Under the intended configuration access the
configured path is returned, and the default is returned when no custom path
is configured. -/
theorem claim_C6_output_path_code_bug :
    getSecretsConfig ⟨some ⟨some ⟨JsValue.undef, JsValue.str "my-secrets.json"⟩⟩⟩
        defaultSecretsFile
      = Except.error (JsError.referenceError "custom is not defined") ∧
    getSecretsConfig ⟨some ⟨none⟩⟩ defaultSecretsFile
      = Except.ok ([], JsValue.str "secret-baker-secrets.json") ∧
    getSecretsConfigIntended ⟨some ⟨some ⟨JsValue.undef, JsValue.str "my-secrets.json"⟩⟩⟩
        defaultSecretsFile
      = Except.ok ([], JsValue.str "my-secrets.json") ∧
    getSecretsConfigIntended ⟨some ⟨some ⟨JsValue.undef, JsValue.undef⟩⟩⟩ defaultSecretsFile
      = Except.ok ([], JsValue.str "secret-baker-secrets.json") := by
  exact ⟨rfl, rfl, rfl, rfl⟩

/-- C7. Cleanup-suppression: `this.hooks` is computed once, in the
constructor, from the parsed CLI parameters. If the parsed parameters contain
the key `secret-baker-cleanup`, only the package hooks are registered — every
registered hook dispatches to packaging and none to cleanup; if the key is
absent, the cleanup hooks are registered as well. -/
theorem claim_C7_cleanup_suppression (args : List String)
    (params : List (String × CliParam)) (h : readParams args = Except.ok params) :
    ((params.lookup "secret-baker-cleanup").isSome = true →
       constructorHooks args = Except.ok pkgHooks ∧
       ∀ e ∈ pkgHooks, e.2 = HookAction.packageHook) ∧
    ((params.lookup "secret-baker-cleanup").isSome = false →
       constructorHooks args = Except.ok (pkgHooks ++ cleanupHooks) ∧
       ∀ e ∈ cleanupHooks, e ∈ pkgHooks ++ cleanupHooks) := by
  constructor
  · intro hp
    refine ⟨?_, by decide⟩
    unfold constructorHooks
    rw [h]
    simp [hp]
  · intro hp
    refine ⟨?_, fun e he => List.mem_append.mpr (Or.inr he)⟩
    unfold constructorHooks
    rw [h]
    simp [hp]

/-- Witness for C7: a run with the suppression key registers only the package
hooks; a run without it registers the cleanup hooks too. -/
theorem claim_C7_cleanup_suppression_witness :
    constructorHooks ["secret-baker-cleanup=1"] = Except.ok pkgHooks ∧
    constructorHooks [] = Except.ok (pkgHooks ++ cleanupHooks) := by
  constructor
  · exact ((claim_C7_cleanup_suppression ["secret-baker-cleanup=1"]
      [("secret-baker-cleanup", ⟨"1", "cli"⟩)] rfl).1 rfl).1
  · exact ((claim_C7_cleanup_suppression [] [] rfl).2 rfl).1

/-- Looking up the unlinked path after `fsUnlink` yields nothing. -/
theorem fsLookup_unlink_self : ∀ (st : FileSystem) (p : String),
    fsLookup (fsUnlink st p) p = none := by
  intro st p
  induction st with
  | nil => rfl
  | cons e rest ih =>
    obtain ⟨k, v⟩ := e
    by_cases hk : k = p
    · subst hk
      simpa [fsUnlink, List.filter] using ih
    · have hne : (k != p) = true := by simp [hk]
      simp only [fsUnlink, List.filter, hne] at ih ⊢
      simpa [fsLookup, List.lookup, show (p == k) = false by simp [Ne.symm hk]] using ih

/-- Looking up any other path after `fsUnlink` is unchanged. -/
theorem fsLookup_unlink_other : ∀ (st : FileSystem) (p q : String), q ≠ p →
    fsLookup (fsUnlink st p) q = fsLookup st q := by
  intro st p q hq
  induction st with
  | nil => rfl
  | cons e rest ih =>
    obtain ⟨k, v⟩ := e
    by_cases hk : k = p
    · subst hk
      have hqk : (q == k) = false := by simp [hq]
      simp only [fsUnlink, List.filter, bne_self_eq_false] at ih ⊢
      simpa [fsLookup, List.lookup, hqk] using ih
    · have hne : (k != p) = true := by simp [hk]
      by_cases hqk : q = k
      · subst hqk
        simp [fsUnlink, List.filter, hne, fsLookup, List.lookup]
      · simp only [fsUnlink, List.filter, hne] at ih ⊢
        simpa [fsLookup, List.lookup, show (q == k) = false by simp [hqk]] using ih

/-- C8. Cleanup behavior: `cleanupPackageSecrets` touches only the file at the
output path of the run — if the file is absent it is a no-op (and, being a total
function, raises no error); if the file exists it is removed; every other path
is left exactly as it was. -/
theorem claim_C8_cleanup (st : FileSystem) (secretsFile : String) :
    (fsExists st secretsFile = false → cleanupPackageSecrets secretsFile st = st) ∧
    (fsExists st secretsFile = true →
       fsExists (cleanupPackageSecrets secretsFile st) secretsFile = false) ∧
    (∀ q, q ≠ secretsFile →
       fsLookup (cleanupPackageSecrets secretsFile st) q = fsLookup st q) := by
  refine ⟨?_, ?_, ?_⟩
  · intro h
    simp [cleanupPackageSecrets, h]
  · intro h
    rw [cleanupPackageSecrets, if_pos h]
    simp [fsExists, fsLookup_unlink_self]
  · intro q hq
    by_cases h : fsExists st secretsFile
    · simp [cleanupPackageSecrets, h, fsLookup_unlink_other st secretsFile q hq]
    · simp [cleanupPackageSecrets, h]

/-- Witness for C8: cleanup removes an existing secrets file, and is the
identity when the file is absent. -/
theorem claim_C8_cleanup_witness :
    fsExists (cleanupPackageSecrets defaultSecretsFile [(defaultSecretsFile, [])])
        defaultSecretsFile = false ∧
    cleanupPackageSecrets defaultSecretsFile [("other.json", [])]
      = [("other.json", [])] := by
  constructor
  · exact (claim_C8_cleanup [(defaultSecretsFile, [])] defaultSecretsFile).2.1 rfl
  · exact (claim_C8_cleanup [("other.json", [])] defaultSecretsFile).1 rfl

/-- C10. In the `Array.isArray` branch of the shape dispatch (lines 64-74),
an element that is not a string is passed through unchanged as the secret
reference — an object such as `{name, path}` in the list is used as-is, at
its original position, rather than being rejected or mapped to a
name-equals-path pair. -/
theorem claim_C10_nonstring_passthrough (items : List JsValue) (i : Nat)
    (item : JsValue) (hi : items.get? i = some item)
    (hns : ∀ s, item ≠ JsValue.str s) :
    ∃ out, normalizeSecretsValue (JsValue.arr items) = Except.ok out ∧
      out.get? i = some item := by
  refine ⟨items.map normListItem, rfl, ?_⟩
  rw [List.get?_map, hi]
  cases item with
  | str s => exact absurd rfl (hns s)
  | num n => rfl
  | bool b => rfl
  | arr xs => rfl
  | obj fields => rfl
  | nullV => rfl
  | undef => rfl

/-- Witness for C10: a list declaration holding one `{name, path}` object is
normalized to that very object. -/
theorem claim_C10_nonstring_passthrough_witness :
    ∃ out, normalizeSecretsValue
        (JsValue.arr [JsValue.obj [("name", JsValue.str "N"), ("path", JsValue.str "P")]])
      = Except.ok out ∧
      out.get? 0 = some (JsValue.obj [("name", JsValue.str "N"), ("path", JsValue.str "P")]) := by
  exact claim_C10_nonstring_passthrough
    [JsValue.obj [("name", JsValue.str "N"), ("path", JsValue.str "P")]] 0
    (JsValue.obj [("name", JsValue.str "N"), ("path", JsValue.str "P")]) rfl
    (fun s h => JsValue.noConfusion h)

end SecretBaker
